import Mathlib

/-!
Verification development for the AutoDownloader repository.

This file gives a shallow embedding, in Lean 4, of the pure logic of the
repository's core modules and proves (or refutes) the specification claims
about them:

* `src/main.py` — `find_incomplete_courses`, `PendingLessonsDetector._courses_match`,
  `sanitize_filename` (the underscore-collapsing variant);
* `src/utils/file_utils.py` — `sanitize_filename` (the space-collapsing,
  length-capped variant) with `src/config/constants.py`'s `INVALID_FILENAME_CHARS`;
* `src/services/manifest_service.py` — `FileManifestManager` (start_lesson,
  add_file, finish_lesson, _save_manifest, _load_manifest, get_course_statistics);
* `src/download_optimization.py` — `ParallelDownloadManager._download_file`
  and `download_all`;
* `src/video_optimization.py` — `ParallelVideoDownloader._download_single_video`.

Modelling conventions.  Machine-level effects are made explicit: the clock is a
`String` argument (`now`), the filesystem and network are small oracle records
passed to each function, wall-clock-derived statistics (elapsed seconds, MB/s)
are outside the embedding, and a Python exception that escapes a function is an
`Except` error value.  Python `str` is Lean `String`;
`str.lower` / `str.strip` / the regular expressions used by the source are
embedded character by character below.  `\s` and `str.strip()` are embedded
over the ASCII whitespace characters (the titles and filenames the program
manipulates contain no exotic Unicode whitespace, and the control characters
among them have already been replaced where that matters); `str.lower` is
embedded over ASCII plus the Latin-1 uppercase letters, covering the
Portuguese alphabet handled by the program.
-/

namespace AutoDownloader

/-! ## Python string primitives -/

/-- Python `\s` (ASCII part): space, tab, newline, vertical tab, form feed,
carriage return. -/
def isPySpace (c : Char) : Bool :=
  c == ' ' || c == '\t' || c == '\n' || c.toNat == 11 || c.toNat == 12 || c == '\r'

/-- Python `str.lower` on one character (ASCII `A`–`Z` and Latin-1 `À`–`Þ`
except `×`, which covers every uppercase letter in the titles the program
handles). -/
def pyLowerChar (c : Char) : Char :=
  if ('A' ≤ c && c ≤ 'Z') || ('À' ≤ c && c ≤ 'Þ' && c != '×') then
    Char.ofNat (c.toNat + 32)
  else c

/-- Python `str.lower`. -/
def pyLower (s : String) : String := String.mk (s.data.map pyLowerChar)

/-- Drop trailing characters satisfying `p`. -/
def dropTrailing (p : Char → Bool) (l : List Char) : List Char :=
  (l.reverse.dropWhile p).reverse

/-- Python `str.strip(chars)` on a character list: drop characters satisfying
`p` from both ends. -/
def pyStripList (p : Char → Bool) (l : List Char) : List Char :=
  dropTrailing p (l.dropWhile p)

/-- Python `str.strip()` (whitespace strip). -/
def pyStrip (s : String) : String := String.mk (pyStripList isPySpace s.data)

/-- Python substring test `needle in haystack` on character lists. -/
def isSubstringList (needle : List Char) : List Char → Bool
  | [] => needle.isEmpty
  | c :: t => needle.isPrefixOf (c :: t) || isSubstringList needle (t : List Char)

/-- One pass of `re.sub(cls+, rep, s)` for a character class `p`: every maximal
run of characters satisfying `p` is replaced by the single character `rep`.
The `inRun` flag records whether the previous character belonged to a run. -/
def collapseAux (p : Char → Bool) (rep : Char) : List Char → Bool → List Char
  | [], _ => []
  | c :: t, inRun =>
    if p c then
      if inRun then collapseAux p rep t true
      else rep :: collapseAux p rep t true
    else c :: collapseAux p rep t false

/-- `re.sub(cls+, rep, s)` for a one-character class `p`. -/
def collapseRuns (p : Char → Bool) (rep : Char) (l : List Char) : List Char :=
  collapseAux p rep l false

/-- Banker's rounding of a rational to an integer (Python `round(x)`:
round half to even). -/
def roundHalfEven (q : ℚ) : ℤ :=
  let f : ℤ := ⌊q⌋
  let r : ℚ := q - f
  if r < 1 / 2 then f
  else if 1 / 2 < r then f + 1
  else if f % 2 = 0 then f else f + 1

/-- Python `round(x, n)` over the rationals (the source applies it to floats;
the difference only shows in the binary representation of exact ties, which
none of the claims inspect). -/
def pyRoundTo (n : ℕ) (q : ℚ) : ℚ :=
  (roundHalfEven (q * 10 ^ n) : ℚ) / 10 ^ n

/-! ## `src/main.py`: PendingLessonsDetector._courses_match (lines 437-469) -/

/-- `re.sub(r'[^a-z0-9\s]', '', s)` — keep only ASCII lowercase letters, ASCII
digits and whitespace.  Note that whitespace is kept and that accented letters
such as `á` are removed (they are outside `a-z`). -/
def normalizeCourseName (s : String) : String :=
  String.mk (s.data.filter fun c =>
    ('a' ≤ c && c ≤ 'z') || ('0' ≤ c && c ≤ '9') || isPySpace c)

/-- Rule (a) of `_courses_match`: the sidecar `course_metadata.json` is present
and readable and its `original_title`, lowercased and stripped, equals the
lowercased and stripped second name.  `metadata` is `some t` when the sidecar
exists and holds `original_title = t`. -/
def matchByMetadata (metadata : Option String) (name2_lower : String) : Bool :=
  match metadata with
  | some t => pyStrip (pyLower t) == name2_lower
  | none => false

/-- `PendingLessonsDetector._courses_match` (src/main.py lines 437-469): the
four matching rules tried in order, returning at the first success. -/
def _courses_match (course_name_1 course_name_2 : String)
    (metadata : Option String) : Bool :=
  let name1_lower := pyStrip (pyLower course_name_1)
  let name2_lower := pyStrip (pyLower course_name_2)
  if matchByMetadata metadata name2_lower then true
  else if name1_lower == name2_lower then true
  else if normalizeCourseName name1_lower == normalizeCourseName name2_lower then true
  else if isSubstringList name1_lower.data name2_lower.data
       || isSubstringList name2_lower.data name1_lower.data then true
  else false

/-- Rule (a) of the matcher, applied to the two names and the sidecar. -/
def ruleSidecar (_n1 n2 : String) (metadata : Option String) : Bool :=
  matchByMetadata metadata (pyStrip (pyLower n2))

/-- Rule (b): case-insensitive (and outer-whitespace-insensitive) equality. -/
def ruleCaseInsensitive (n1 n2 : String) : Bool :=
  pyStrip (pyLower n1) == pyStrip (pyLower n2)

/-- Rule (c): equality after `re.sub(r'[^a-z0-9\s]', '', ·)` on both sides. -/
def ruleStripped (n1 n2 : String) : Bool :=
  normalizeCourseName (pyStrip (pyLower n1)) == normalizeCourseName (pyStrip (pyLower n2))

/-- Rule (d): substring containment in either direction. -/
def ruleSubstring (n1 n2 : String) : Bool :=
  isSubstringList (pyStrip (pyLower n1)).data (pyStrip (pyLower n2)).data ||
  isSubstringList (pyStrip (pyLower n2)).data (pyStrip (pyLower n1)).data

/-! ## `src/main.py`: find_incomplete_courses (lines 193-316) -/

/-- A course entry scraped from the platform dashboard
(`{"title": ..., "url": ...}`). -/
structure PlatformCourse where
  title : String
  url : String
deriving DecidableEq

/-- One element of the list returned by `find_incomplete_courses`
(src/main.py lines 274-281).  `progress` is the exact value of
`(local_total / platform_total) * 100` before the `"{:.1f}%"` formatting. -/
structure IncompleteCourseInfo where
  course : PlatformCourse
  platform_total : ℕ
  local_total : ℕ
  missing : ℕ
  progress : ℚ
  size_gb : ℚ
deriving DecidableEq

/-- The incomplete-course classification applied to one matched local course
(src/main.py lines 271-296): a report is produced exactly when
`platform_total > local_total`, with `missing = platform_total - local_total`
and `progress_pct = local_total / platform_total * 100`; otherwise the course
is reported complete and no report is produced. -/
def incompleteReport? (course : PlatformCourse) (platform_total local_total : ℕ)
    (size_gb : ℚ) : Option IncompleteCourseInfo :=
  if platform_total > local_total then
    some { course := course
           platform_total := platform_total
           local_total := local_total
           missing := platform_total - local_total
           progress := (local_total : ℚ) / (platform_total : ℚ) * 100
           size_gb := size_gb }
  else none

/-- The data `find_incomplete_courses` gathers for one locally downloaded
course before looking for its platform counterpart: the name used for
matching (`original_title` from `course_metadata.json` when that sidecar is
readable, else the directory name), the sidecar content itself, the number of
locally downloaded lessons, and the manifest's size statistic. -/
structure LocalScan where
  name : String
  metadata : Option String
  local_total : ℕ
  size_gb : ℚ

/-- `find_incomplete_courses` (src/main.py lines 193-316), factored over its
oracles: `countLessons` stands for `get_total_lessons_from_platform` (a
Selenium page count keyed by course URL; it returns 0 on timeout), and each
`LocalScan` packages what the function reads from disk for one local course.
For each local course the first platform course matched by `_courses_match`
is taken; unmatched courses are skipped; matched ones are classified by
`incompleteReport?`.  The second component is the `courses_map` the function
returns alongside the reports. -/
def find_incomplete_courses (countLessons : String → ℕ) (scans : List LocalScan)
    (available : List PlatformCourse) :
    List IncompleteCourseInfo × List (String × PlatformCourse) :=
  (scans.filterMap fun s =>
      match available.find? (fun c => _courses_match s.name c.title s.metadata) with
      | none => none
      | some pc => incompleteReport? pc (countLessons pc.url) s.local_total s.size_gb,
   available.map fun c => (c.title, c))

/-! ## `src/utils/file_utils.py`: sanitize_filename (lines 14-54) -/

namespace FileUtils

/-- `INVALID_FILENAME_CHARS = r'[<>:"/\\|?*\x00-\x1f]'`
(src/config/constants.py line 72). -/
def isInvalidFilenameChar (c : Char) : Bool :=
  c == '<' || c == '>' || c == ':' || c == '"' || c == '/' || c == '\\' ||
  c == '|' || c == '?' || c == '*' || c.toNat ≤ 0x1f

/-- `re.sub(INVALID_FILENAME_CHARS, ' ', filename)`: each forbidden character
becomes one space. -/
def replaceInvalid (l : List Char) : List Char :=
  l.map fun c => if isInvalidFilenameChar c then ' ' else c

/-- The last index of `l` at which `p` holds, as Python `str.rfind`: `-1` when
there is none. -/
def lastIdx (p : Char → Bool) (l : List Char) : ℤ :=
  (l.foldl (fun (st : ℤ × ℤ) c => (if p c then st.2 else st.1, st.2 + 1)) (-1, 0)).1

/-- `os.path.splitext` on a character list (CPython `genericpath._splitext`
with `sep='\\'`, `altsep='/'` as on the Windows host the program targets; at
its call site below neither separator can occur, both having been replaced by
spaces).  The extension starts at the last dot, unless every character of the
basename before that dot is itself a dot (leading dots do not start an
extension). -/
def splitextSepIndex (l : List Char) : ℤ :=
  max (lastIdx (· == '\\') l) (lastIdx (· == '/') l)

def splitextDotIndex (l : List Char) : ℤ :=
  lastIdx (· == '.') l

def pySplitext (l : List Char) : List Char × List Char :=
  if splitextSepIndex l < splitextDotIndex l then
    if ((l.drop (splitextSepIndex l + 1).toNat).take
          (splitextDotIndex l - splitextSepIndex l - 1).toNat).any (· != '.') then
      (l.take (splitextDotIndex l).toNat, l.drop (splitextDotIndex l).toNat)
    else (l, [])
  else (l, [])

/-- Python slicing `l[:stop]` with a possibly negative `stop`. -/
def pySliceTo (l : List Char) (stop : ℤ) : List Char :=
  if stop < 0 then l.take (stop + l.length).toNat else l.take stop.toNat

/-- Steps (1)-(3) of `sanitize_filename`: replace forbidden characters by
spaces, collapse whitespace runs to a single space, strip outer whitespace. -/
def cleaned (l : List Char) : List Char :=
  pyStripList isPySpace (collapseRuns isPySpace ' ' (replaceInvalid l))

/-- The truncation step of `sanitize_filename` (lines 44-48):
if the cleaned name is longer than `max_length`, keep the
`os.path.splitext` extension and slice the rest. -/
def truncateName (maxLength : ℕ) (l : List Char) : List Char :=
  if maxLength < l.length then
    pySliceTo (pySplitext l).1 ((maxLength : ℤ) - (pySplitext l).2.length) ++
      (pySplitext l).2
  else l

/-- `sanitize_filename` (src/utils/file_utils.py lines 14-54).  `maxLength` is
the `max_length` parameter, `200` by default at every call site.  The leading
`if not filename` test is on the character content. -/
def sanitize_filename (maxLength : ℕ) (filename : String) : String :=
  if filename.data.isEmpty then "unnamed_file"
  else
    let s := truncateName maxLength (cleaned filename.data)
    if s.isEmpty then "unnamed_file" else String.mk s

end FileUtils

/-! ## `src/main.py`: sanitize_filename (lines 736-742) -/

namespace MainScript

/-- `re.sub(r'[<>:"/\\|?*]', '', s)` removes the forbidden characters outright
(no control-character range in this variant). -/
def isRemovedChar (c : Char) : Bool :=
  c == '<' || c == '>' || c == ':' || c == '"' || c == '/' || c == '\\' ||
  c == '|' || c == '?' || c == '*'

/-- `[\s-]`: the separator class collapsed to underscores. -/
def isSepChar (c : Char) : Bool := isPySpace c || c == '-'

/-- The `'._- '` class stripped from both ends by `sanitized.strip('._- ')`. -/
def isTrimChar (c : Char) : Bool :=
  c == '.' || c == '_' || c == '-' || c == ' '

/-- `sanitize_filename` (src/main.py lines 736-742): remove `[<>:"/\\|?*]`,
remove `[.,]`, collapse `[\s-]+` runs to `_`, strip `'._- '` from the ends,
then strip whitespace. -/
def sanitize_filename (original_filename : String) : String :=
  let s1 := original_filename.data.filter fun c => !isRemovedChar c
  let s2 := s1.filter fun c => !(c == '.' || c == ',')
  let s3 := collapseRuns isSepChar '_' s2
  let s4 := pyStripList isTrimChar s3
  String.mk (pyStripList isPySpace s4)

/-- Specification-side description of run collapsing, written from the spec's
words rather than from the code: split the string at every maximal run of
separator characters (`specSplit`, below, processes the string from the right,
tracking whether the segment list's head was opened by a run), then rejoin the
non-separator segments with single underscores.  Compared against the code's
`collapseRuns` in the C9 theorem. -/
def specSplitAux (p : Char → Bool) : List Char → List (List Char) × Bool
  | [] => ([[]], false)
  | c :: t =>
    let (segs, headRun) := specSplitAux p t
    if p c then
      if headRun then (segs, true) else ([] :: segs, true)
    else
      match segs with
      | [] => ([[c]], false)
      | seg :: rest => ((c :: seg) :: rest, false)

/-- The maximal-run decomposition: the (possibly empty) non-separator segments
of `l`, in order, with exactly one segment boundary per maximal run of
separator characters. -/
def specSplit (p : Char → Bool) (l : List Char) : List (List Char) :=
  (specSplitAux p l).1

end MainScript

/-! ## `src/services/manifest_service.py`: FileManifestManager -/

namespace ManifestService

/-- One element of a lesson's `"files"` list, as built by `add_file`
(src/services/manifest_service.py lines 120-128).  `ftype` embeds the `"type"`
key. -/
structure FileEntry where
  name : String
  size_bytes : ℤ
  size_mb : ℚ
  ftype : String
  download_time : String
  status : String
  added_at : String
deriving DecidableEq

/-- One lesson entry of the manifest dict: the keys written by `start_lesson`
plus the `"completed_at"` key added by `finish_lesson`. -/
structure LessonEntry where
  timestamp : String
  total_files : ℕ
  files : List FileEntry
  completed_at : Option String
deriving DecidableEq

/-- The in-memory manifest `self.manifest`: a Python dict keyed by lesson
title, embedded as an association list in insertion order. -/
abbrev Manifest := List (String × LessonEntry)

/-- `start_lesson` (lines 82-95): insert a fresh entry only when the title is
absent.  `now` is `datetime.now().isoformat()`. -/
def start_lesson (m : Manifest) (lesson_title now : String) : Manifest :=
  match m.lookup lesson_title with
  | some _ => m
  | none =>
    m ++ [(lesson_title,
           { timestamp := now, total_files := 0, files := [], completed_at := none })]

/-- Update the entry stored under `title` (Python dict item assignment). -/
def updateEntry (m : Manifest) (title : String) (f : LessonEntry → LessonEntry) :
    Manifest :=
  m.map fun p => if p.1 == title then (p.1, f p.2) else p

/-- The `file_entry` dict built by `add_file` (lines 120-128);
`size_mb = round(size_bytes / (1024 * 1024), 2)`. -/
def mkFileEntry (file_name : String) (size_bytes : ℤ)
    (file_type download_time status now : String) : FileEntry :=
  { name := file_name
    size_bytes := size_bytes
    size_mb := pyRoundTo 2 ((size_bytes : ℚ) / (1024 * 1024))
    ftype := file_type
    download_time := download_time
    status := status
    added_at := now }

/-- `add_file` (lines 97-137): auto-start the lesson when absent, append the
record, then set `total_files` to the new length of the `files` list. -/
def add_file (m : Manifest) (lesson_title file_name : String) (size_bytes : ℤ)
    (file_type download_time status now : String) : Manifest :=
  let m := start_lesson m lesson_title now
  updateEntry m lesson_title fun e =>
    let files := e.files ++ [mkFileEntry file_name size_bytes file_type download_time status now]
    { e with files := files, total_files := files.length }

/-- The dict returned by `get_course_statistics` (lines 176-199).
`total_files` sums the stored `total_files` fields; `total_size_bytes` sums
`size_bytes` over every file record. -/
structure CourseStatistics where
  total_lessons : ℕ
  total_files : ℤ
  total_size_bytes : ℤ
  total_size_mb : ℚ
  total_size_gb : ℚ
deriving DecidableEq

/-- `get_course_statistics` on the in-memory manifest. -/
def get_course_statistics (m : Manifest) : CourseStatistics :=
  let total_size_bytes := (m.map fun p => (p.2.files.map (·.size_bytes)).sum).sum
  { total_lessons := m.length
    total_files := (m.map fun p => (p.2.total_files : ℤ)).sum
    total_size_bytes := total_size_bytes
    total_size_mb := pyRoundTo 2 ((total_size_bytes : ℚ) / 1024 ^ 2)
    total_size_gb := pyRoundTo 2 ((total_size_bytes : ℚ) / 1024 ^ 3) }

/-! ### The persisted JSON value (for the save/reload round trip, C7)

`_save_manifest` serializes `self.manifest` with `json.dump` and
`_load_manifest` parses the file back with `json.load`.  The Python `json`
module round-trips the written value exactly (strings, ints and the float
`size_mb` all reparse to equal values), so the text layer is embedded at the
parsed-value level: a `Json` tree.  What remains of the repository's own
behaviour — which keys are written, and which keys the statistics reader
expects — is embedded explicitly below. -/

/-- A parsed JSON value as produced by `json.load`. -/
inductive Json where
  | null : Json
  | bool : Bool → Json
  | str : String → Json
  | int : ℤ → Json
  | num : ℚ → Json
  | arr : List Json → Json
  | obj : List (String × Json) → Json

/-- Python `d[key]` on a parsed JSON dict, `none` when the value is not a dict
or the key is missing (a `KeyError`/`TypeError` in Python). -/
def Json.lookup (j : Json) (key : String) : Option Json :=
  match j with
  | .obj fields => fields.lookup key
  | _ => none

/-- The JSON value `json.dump` writes for one file record. -/
def encodeFileEntry (f : FileEntry) : Json :=
  .obj [("name", .str f.name), ("size_bytes", .int f.size_bytes),
        ("size_mb", .num f.size_mb), ("type", .str f.ftype),
        ("download_time", .str f.download_time), ("status", .str f.status),
        ("added_at", .str f.added_at)]

/-- The JSON value written for one lesson entry; `completed_at` is present
only once `finish_lesson` has stamped it (then it is the last key, having been
inserted last). -/
def encodeLessonEntry (e : LessonEntry) : Json :=
  .obj ([("timestamp", .str e.timestamp), ("total_files", .int (e.total_files : ℤ)),
         ("files", .arr (e.files.map encodeFileEntry))] ++
        (match e.completed_at with
         | some t => [("completed_at", .str t)]
         | none => []))

/-- The JSON value `_save_manifest` writes for the whole manifest. -/
def encodeManifest (m : Manifest) : Json :=
  .obj (m.map fun p => (p.1, encodeLessonEntry p.2))

/-- Run a fallible reader over every list element (a Python `for` loop whose
body may raise). -/
def traverseOption {α β : Type} (h : α → Option β) : List α → Option (List β)
  | [] => some []
  | a :: t =>
    match h a, traverseOption h t with
    | some b, some bs => some (b :: bs)
    | _, _ => none

/-- `lesson["total_files"]` on a reloaded manifest: the value must be present
and an integer for the generator inside `get_course_statistics` to sum it. -/
def jsonTotalFiles (lesson : Json) : Option ℤ :=
  match lesson.lookup "total_files" with
  | some (.int n) => some n
  | _ => none

/-- `lesson.get("files", [])` on a reloaded manifest: a missing key defaults to
the empty list; a present non-list value would fail iteration. -/
def jsonFiles (lesson : Json) : Option (List Json) :=
  match lesson with
  | .obj fields =>
    match fields.lookup "files" with
    | none => some []
    | some (.arr l) => some l
    | some _ => none
  | _ => none

/-- `file["size_bytes"]` on a reloaded file record. -/
def jsonSizeBytes (file : Json) : Option ℤ :=
  match file.lookup "size_bytes" with
  | some (.int n) => some n
  | _ => none

/-- `get_course_statistics` evaluated over a reloaded (parsed-JSON) manifest,
`none` when a subscript the source performs would raise. -/
def get_course_statistics_json (j : Json) : Option CourseStatistics :=
  match j with
  | .obj lessons =>
    (traverseOption (fun p => jsonTotalFiles p.2) lessons).bind fun tfs =>
      (traverseOption (fun p => jsonFiles p.2) lessons).bind fun fls =>
        (traverseOption jsonSizeBytes fls.flatten).bind fun sizes =>
          let total_size_bytes := sizes.sum
          some { total_lessons := lessons.length
                 total_files := tfs.sum
                 total_size_bytes := total_size_bytes
                 total_size_mb := pyRoundTo 2 ((total_size_bytes : ℚ) / 1024 ^ 2)
                 total_size_gb := pyRoundTo 2 ((total_size_bytes : ℚ) / 1024 ^ 3) }
  | _ => none

/-- `_load_manifest` (lines 49-66) at the parsed-value level: an absent file
yields the empty dict (and a parse failure likewise, swallowed and logged). -/
def _load_manifest (disk : Option Json) : Json :=
  disk.getD (.obj [])

/-! ### The on-disk text (for the flush-atomicity claim, C6)

`_save_manifest` opens `files_manifest.json` with mode `'w'` — which truncates
the existing file in place — and then lets `json.dump(manifest, f, indent=2,
ensure_ascii=False)` stream the serialization into it.  The serialization is
embedded verbatim below (`json_dump`), and a save is a transition on the
file's text content that may be interrupted after any number of characters. -/

/-- Lower-case hexadecimal digit. -/
def hexDigit (n : ℕ) : Char :=
  if n < 10 then Char.ofNat ('0'.toNat + n) else Char.ofNat ('a'.toNat + n - 10)

/-- JSON string escaping with `ensure_ascii=False`: only the backslash, the
double quote and control characters are escaped. -/
def escapeChar (c : Char) : List Char :=
  if c == '\\' then ['\\', '\\']
  else if c == '"' then ['\\', '"']
  else if c.toNat == 8 then ['\\', 'b']
  else if c == '\t' then ['\\', 't']
  else if c == '\n' then ['\\', 'n']
  else if c.toNat == 12 then ['\\', 'f']
  else if c == '\r' then ['\\', 'r']
  else if c.toNat < 0x20 then
    ['\\', 'u', '0', '0', hexDigit (c.toNat / 16), hexDigit (c.toNat % 16)]
  else [c]

/-- A JSON string literal. -/
def quoteStr (s : String) : String :=
  "\"" ++ String.mk (s.data.flatMap escapeChar) ++ "\""

/-- Python `repr` of the float `size_mb` as written by `json.dump`.  Every
value the manager stores there is `round(x, 2)`, an exact multiple of `1/100`
whose shortest decimal form has at most two fractional digits. -/
def floatRepr (q : ℚ) : String :=
  let sign := if q < 0 then "-" else ""
  let a : ℚ := |q|
  if (a * 10).den = 1 then
    let n := (a * 10).num.toNat
    sign ++ toString (n / 10) ++ "." ++ toString (n % 10)
  else if (a * 100).den = 1 then
    let n := (a * 100).num.toNat
    sign ++ toString (n / 100) ++ "." ++ toString (n % 100 / 10) ++ toString (n % 10)
  else sign ++ toString a.num ++ "/" ++ toString a.den

/-- `indent=2`: two spaces per nesting depth. -/
def ind (d : ℕ) : String := String.mk (List.replicate (2 * d) ' ')

/-- One file record as serialized at depth `d`. -/
def dumpFileEntry (d : ℕ) (f : FileEntry) : String :=
  "\x7b\n" ++
  String.intercalate ",\n"
    [ind (d + 1) ++ quoteStr "name" ++ ": " ++ quoteStr f.name,
     ind (d + 1) ++ quoteStr "size_bytes" ++ ": " ++ toString f.size_bytes,
     ind (d + 1) ++ quoteStr "size_mb" ++ ": " ++ floatRepr f.size_mb,
     ind (d + 1) ++ quoteStr "type" ++ ": " ++ quoteStr f.ftype,
     ind (d + 1) ++ quoteStr "download_time" ++ ": " ++ quoteStr f.download_time,
     ind (d + 1) ++ quoteStr "status" ++ ": " ++ quoteStr f.status,
     ind (d + 1) ++ quoteStr "added_at" ++ ": " ++ quoteStr f.added_at] ++
  "\n" ++ ind d ++ "\x7d"

/-- The `"files"` list as serialized at depth `d`. -/
def dumpFiles (d : ℕ) (fs : List FileEntry) : String :=
  if fs.isEmpty then "[]"
  else
    "[\n" ++
    String.intercalate ",\n" (fs.map fun f => ind (d + 1) ++ dumpFileEntry (d + 1) f) ++
    "\n" ++ ind d ++ "]"

/-- One lesson entry as serialized at depth `d`. -/
def dumpLessonEntry (d : ℕ) (e : LessonEntry) : String :=
  "\x7b\n" ++
  String.intercalate ",\n"
    ([ind (d + 1) ++ quoteStr "timestamp" ++ ": " ++ quoteStr e.timestamp,
      ind (d + 1) ++ quoteStr "total_files" ++ ": " ++ toString e.total_files,
      ind (d + 1) ++ quoteStr "files" ++ ": " ++ dumpFiles (d + 1) e.files] ++
     (match e.completed_at with
      | some t => [ind (d + 1) ++ quoteStr "completed_at" ++ ": " ++ quoteStr t]
      | none => [])) ++
  "\n" ++ ind d ++ "\x7d"

/-- `json.dump(self.manifest, f, indent=2, ensure_ascii=False)`: the exact
text `_save_manifest` writes. -/
def json_dump (m : Manifest) : String :=
  if m.isEmpty then "\x7b\x7d"
  else
    "\x7b\n" ++
    String.intercalate ",\n"
      (m.map fun p => ind 1 ++ quoteStr p.1 ++ ": " ++ dumpLessonEntry 1 p.2) ++
    "\n\x7d"

/-- How a write attempt ends: either the full serialization reaches the disk,
or an error interrupts it after `n` characters. -/
inductive WriteOutcome where
  | success : WriteOutcome
  | failAfter : ℕ → WriteOutcome
deriving DecidableEq

/-- `_save_manifest` (lines 68-80) as a transition on the manifest file's text
content.  `open(self.manifest_path, 'w')` truncates the file in place before
anything is written, so the previous content (`_old`) is gone either way; an
error mid-write leaves the prefix written so far, and the exception is caught
and logged (lines 79-80), not propagated. -/
def _save_manifest (_old : String) (m : Manifest) (w : WriteOutcome) : String :=
  match w with
  | .success => json_dump m
  | .failAfter n => String.mk ((json_dump m).data.take n)

/-- `finish_lesson` (lines 139-153): when the lesson is present, stamp
`completed_at` and flush the whole manifest through `_save_manifest`.
Returns the new in-memory manifest and the new disk content. -/
def finish_lesson (m : Manifest) (disk : String) (lesson_title now : String)
    (w : WriteOutcome) : Manifest × String :=
  match m.lookup lesson_title with
  | some _ =>
    let m2 := updateEntry m lesson_title fun e => { e with completed_at := some now }
    (m2, _save_manifest disk m2 w)
  | none => (m, disk)

/-! ### Operation sequences (for the `total_files` invariant, C10) -/

/-- One mutating call against a `FileManifestManager`. -/
inductive ManifestOp where
  | start (lesson_title now : String)
  | addFile (lesson_title file_name : String) (size_bytes : ℤ)
      (file_type download_time status now : String)

/-- Apply one operation to the in-memory manifest. -/
def applyOp (m : Manifest) : ManifestOp → Manifest
  | .start t now => start_lesson m t now
  | .addFile t n s ft dt st now => add_file m t n s ft dt st now

/-- Run a sequence of operations against a manager constructed over an empty
(or absent) manifest file. -/
def runOps (ops : List ManifestOp) : Manifest :=
  ops.foldl applyOp []

end ManifestService

/-! ## `src/download_optimization.py`: ParallelDownloadManager -/

namespace DownloadOptimization

/-- `DownloadTask` (src/download_optimization.py lines 22-37).  `start_time`
and `end_time` hold wall-clock readings; the embedding tracks only whether
they have been set. -/
structure DownloadTask where
  file_url : String
  file_path : String
  file_name : String
  file_type : String
  lesson_title : String
  status : String
  bytes_downloaded : ℕ
  total_bytes : ℕ
  has_start_time : Bool
  has_end_time : Bool
  error_message : String
deriving DecidableEq

/-- A freshly constructed task (constructor defaults, lines 25-37). -/
def mkTask (file_url file_path file_name file_type lesson_title : String) :
    DownloadTask :=
  { file_url := file_url, file_path := file_path, file_name := file_name
    file_type := file_type, lesson_title := lesson_title
    status := "pending", bytes_downloaded := 0, total_bytes := 0
    has_start_time := false, has_end_time := false, error_message := "" }

/-- What the environment does once `_download_file` enters its `try` block
past the existence check: either the whole request/stream/write sequence
succeeds (`ok`, with the `content-length` header value and the sizes of the
streamed chunks), or some step raises.  Each `raise` constructor names the
exception class that reaches the `except` chain. -/
inductive TryEvent where
  | ok (contentLength : ℕ) (chunks : List ℕ)
  | mkdirError (msg : String)
  | timeout
  | connectionError
  | httpError (msg : String)
  | streamError (contentLength : ℕ) (partialChunks : List ℕ) (msg : String)
deriving DecidableEq

/-- The filesystem/network oracle for one `_download_file` call:
whether `os.path.exists(task.file_path)` holds on entry, the
`os.path.getsize` result when it does, and the fate of the `try` block
otherwise. -/
structure FetchEnv where
  file_exists : Bool
  existing_size : ℕ
  event : TryEvent
deriving DecidableEq

/-- A Python exception escaping the function. -/
inductive PyError where
  | typeError (msg : String)
deriving DecidableEq

/-- The message of the `TypeError` CPython raises when an `except` clause
names a value that is not an exception class. -/
def invalidExceptMsg : String :=
  "catching classes that do not inherit from BaseException is not allowed"

/-- `ParallelDownloadManager._download_file` (lines 125-208).  Output: the
mutated task, the number of HTTP requests issued, and either the returned
`(success, error_message, bytes_downloaded)` triple or the exception that
escapes.

The source's first `except` clause (line 183) is
`except os.path.exists(task.file_path):`.  When any exception is raised in
the `try` block, CPython evaluates that clause first, finds a `bool` rather
than an exception class, and raises
`TypeError: catching classes that do not inherit from BaseException is not
allowed` — so the `except requests.exceptions.Timeout`,
`except requests.exceptions.ConnectionError` and `except Exception` handlers
below it (lines 187-208) are unreachable, and every exception leaves
`_download_file` as that `TypeError`, with the task still in status
`"downloading"`. -/
def _download_file (task : DownloadTask) (env : FetchEnv) :
    DownloadTask × ℕ × Except PyError (Bool × String × ℕ) :=
  if env.file_exists then
    ({ task with status := "skipped", bytes_downloaded := env.existing_size,
                 total_bytes := env.existing_size },
     0, .ok (true, "already_exists", 0))
  else
    match env.event with
    | .mkdirError _ =>
      (task, 0, .error (.typeError invalidExceptMsg))
    | .ok contentLength chunks =>
      let bytes := (chunks.filter (· != 0)).sum
      ({ task with status := "completed", has_start_time := true,
                   has_end_time := true, total_bytes := contentLength,
                   bytes_downloaded := bytes },
       1, .ok (true, "", bytes))
    | .timeout =>
      ({ task with status := "downloading", has_start_time := true },
       1, .error (.typeError invalidExceptMsg))
    | .connectionError =>
      ({ task with status := "downloading", has_start_time := true },
       1, .error (.typeError invalidExceptMsg))
    | .httpError _ =>
      ({ task with status := "downloading", has_start_time := true },
       1, .error (.typeError invalidExceptMsg))
    | .streamError contentLength partialChunks _ =>
      ({ task with status := "downloading", has_start_time := true,
                   total_bytes := contentLength,
                   bytes_downloaded := (partialChunks.filter (· != 0)).sum },
       1, .error (.typeError invalidExceptMsg))

/-- The countable part of the dict `download_all` returns (lines 261-269).
`total_time`, `total_size_mb` and `average_speed_mbps` are wall-clock
figures outside the embedding. -/
structure DownloadStats where
  total : ℕ
  completed : ℕ
  failed : ℕ
  skipped : ℕ
deriving DecidableEq

/-- The per-future bookkeeping of `download_all`'s collection loop (lines
239-255): a returned triple with `success = True` bumps `completed` or
`skipped` according to the task's final status, a returned failure bumps
`failed`, and an exception re-raised by `future.result()` is caught by the
loop's `except Exception` and also bumps `failed`. -/
def tallyTask (acc : DownloadStats) (task : DownloadTask) (env : FetchEnv) :
    DownloadStats :=
  let (task2, _, result) := _download_file task env
  match result with
  | .ok (success, _, _) =>
    if success then
      if task2.status == "completed" then { acc with completed := acc.completed + 1 }
      else if task2.status == "skipped" then { acc with skipped := acc.skipped + 1 }
      else acc
    else { acc with failed := acc.failed + 1 }
  | .error _ => { acc with failed := acc.failed + 1 }

/-- `ParallelDownloadManager.download_all` (lines 210-271): an empty queue
short-circuits to zero statistics; otherwise every task is submitted to the
pool and each worker's outcome is tallied as it completes.  `as_completed`
yields the futures in an order chosen by the scheduler, but the counters are
commutative sums over the task set, so the tally is folded in queue order. -/
def download_all (tasks : List (DownloadTask × FetchEnv)) : DownloadStats :=
  if tasks.isEmpty then { total := 0, completed := 0, failed := 0, skipped := 0 }
  else
    tasks.foldl (fun acc te => tallyTask acc te.1 te.2)
      { total := tasks.length, completed := 0, failed := 0, skipped := 0 }

/-- A task environment under which the worker completes normally:
the destination is absent and the whole request succeeds. -/
def envCompletes (e : FetchEnv) : Bool :=
  !e.file_exists &&
  (match e.event with
   | .ok _ _ => true
   | _ => false)

/-- A task environment under which the fetch is forced to error: the
destination is absent and some step of the `try` block raises (an unreachable
URL raises `ConnectionError`, for instance). -/
def envFails (e : FetchEnv) : Bool :=
  !e.file_exists &&
  (match e.event with
   | .ok _ _ => false
   | _ => true)

/-- A task environment under which the pre-check short-circuits. -/
def envSkips (e : FetchEnv) : Bool := e.file_exists

end DownloadOptimization

/-! ## `src/video_optimization.py`: ParallelVideoDownloader -/

namespace VideoOptimization

/-- `VideoDownloadTask` (src/video_optimization.py lines 20-36), with the
same clock convention as `DownloadTask`. -/
structure VideoDownloadTask where
  video_url : String
  video_path : String
  video_name : String
  quality : String
  lesson_title : String
  expected_size_mb : ℕ
  status : String
  bytes_downloaded : ℕ
  total_bytes : ℕ
  has_start_time : Bool
  has_end_time : Bool
  error_message : String
deriving DecidableEq

/-- `add_video_task` (lines 66-80): a fresh task with dataclass defaults. -/
def mkVideoTask (video_url video_path video_name quality lesson_title : String) :
    VideoDownloadTask :=
  { video_url := video_url, video_path := video_path, video_name := video_name
    quality := quality, lesson_title := lesson_title, expected_size_mb := 0
    status := "pending", bytes_downloaded := 0, total_bytes := 0
    has_start_time := false, has_end_time := false, error_message := "" }

/-- The oracle for one `_download_single_video` call, mirroring `FetchEnv`;
the error text carried by a raised `ConnectionError` or other exception is
the `msg` argument. -/
structure VideoFetchEnv where
  file_exists : Bool
  existing_size : ℕ
  event : DownloadOptimization.TryEvent
deriving DecidableEq

/-- `ParallelVideoDownloader._download_single_video` (lines 82-169).  Output:
the mutated task, the number of HTTP requests issued, and the returned
`(success, error_message)` pair.  Unlike `_download_file`, this function's
`except` chain is well-formed, so exceptions are converted into
`(False, message)` results with status `"failed"`.  When the destination
already exists the task is marked **"completed"** (lines 93-100) — not
"skipped" — and no request is issued. -/
def _download_single_video (task : VideoDownloadTask) (env : VideoFetchEnv) :
    VideoDownloadTask × ℕ × (Bool × String) :=
  if env.file_exists then
    ({ task with status := "completed", total_bytes := env.existing_size,
                 bytes_downloaded := env.existing_size },
     0, (true, "already_exists"))
  else
    match env.event with
    | .mkdirError msg =>
      ({ task with status := "failed", error_message := msg }, 0, (false, msg))
    | .ok contentLength chunks =>
      let bytes := (chunks.filter (· != 0)).sum
      ({ task with status := "completed", has_start_time := true,
                   has_end_time := true, total_bytes := contentLength,
                   bytes_downloaded := bytes },
       1, (true, ""))
    | .timeout =>
      ({ task with status := "failed", has_start_time := true,
                   error_message := "Timeout na conexão" },
       1, (false, "Timeout na conexão"))
    | .connectionError =>
      let msg := "Erro de conexão: "
      ({ task with status := "failed", has_start_time := true,
                   error_message := msg },
       1, (false, msg))
    | .httpError msg =>
      ({ task with status := "failed", has_start_time := true,
                   error_message := msg },
       1, (false, msg))
    | .streamError contentLength partialChunks msg =>
      ({ task with status := "failed", has_start_time := true,
                   total_bytes := contentLength,
                   bytes_downloaded := (partialChunks.filter (· != 0)).sum,
                   error_message := msg },
       1, (false, msg))

end VideoOptimization

/-! ## Theorems -/

/-- `List.lookup` over an appended singleton. -/
theorem lookup_append_singleton {β : Type} (l : List (String × β)) (k : String) (v : β) :
    (l ++ [(k, v)]).lookup k = ((l.lookup k).getD v : β) := by
  induction l with
  | nil => simp [List.lookup]
  | cons p t ih =>
    by_cases h : k = p.1
    · simp [List.lookup, h]
    · have h' : (k == p.1) = false := by simpa using h
      simp [List.lookup, h', ih]

/-- After `start_lesson m t now` the title `t` is present. -/
theorem lookup_start_lesson (m : ManifestService.Manifest) (t now : String) :
    ∃ e, (ManifestService.start_lesson m t now).lookup t = some e := by
  unfold ManifestService.start_lesson
  cases h : m.lookup t with
  | some e => exact ⟨e, by simp [h]⟩
  | none =>
    refine ⟨{ timestamp := now, total_files := 0, files := [], completed_at := none }, ?_⟩
    simp only [h]
    rw [lookup_append_singleton, h]
    rfl

/-- C1: for every locally downloaded course matched to a remote course,
`find_incomplete_courses` classifies it as incomplete exactly when the remote
lesson count exceeds the local one, reporting `missing = remote - local` and
`progress = local / remote * 100`; a remote count of 0 is classified complete
(no division is reached).  Concretely, 2 local and 17 remote lessons yield
exactly one report with `missing = 15` and `progress = 200/17`, which formats
to 11.8%. -/
theorem find_incomplete_courses_classification :
    (∀ (pc : PlatformCourse) (pt lt : ℕ) (gb : ℚ),
      ((incompleteReport? pc pt lt gb).isSome ↔ lt < pt) ∧
      incompleteReport? pc pt lt gb =
        (if lt < pt then
           some { course := pc, platform_total := pt, local_total := lt,
                  missing := pt - lt,
                  progress := (lt : ℚ) / (pt : ℚ) * 100, size_gb := gb }
         else none) ∧
      incompleteReport? pc 0 lt gb = none) ∧
    (find_incomplete_courses (fun _ => 17) [⟨"Curso X", none, 2, 0⟩]
        [⟨"Curso X", "https://example.org/c1"⟩]).1 =
      [{ course := ⟨"Curso X", "https://example.org/c1"⟩, platform_total := 17,
         local_total := 2, missing := 15, progress := 200 / 17, size_gb := 0 }] ∧
    pyRoundTo 1 ((2 : ℚ) / 17 * 100) = 59 / 5 := by
  refine ⟨fun pc pt lt gb => ⟨?_, rfl, ?_⟩, ?_, ?_⟩
  · unfold incompleteReport?
    split <;> simp_all
  · unfold incompleteReport?
    simp
  · have hmatch : _courses_match "Curso X" "Curso X" none = true := by decide
    unfold find_incomplete_courses
    simp only [List.filterMap, List.find?, hmatch, List.map]
    unfold incompleteReport?
    norm_num
  · have h1 : ((2 : ℚ) / 17 * 100) * 10 ^ 1 = 2000 / 17 := by norm_num
    have hf : ⌊(2000 : ℚ) / 17⌋ = 117 := by
      rw [Int.floor_eq_iff]
      norm_num
    unfold pyRoundTo roundHalfEven
    rw [h1, hf]
    rw [if_neg (by norm_num), if_pos (by norm_num)]
    norm_num

/-- C2 (counterexample): the local title "Curso_de_Python_Basico" does NOT
match the remote title "Curso de Python: Básico!" — the code's rule (c) keeps
whitespace (the class is `[^a-z0-9\s]`) and removes the accented `á`, so the
normal forms are "cursodepythonbasico" and "curso de python bsico", and no
other rule applies either. -/
theorem courses_match_example_fails :
    _courses_match "Curso_de_Python_Basico" "Curso de Python: Básico!" none = false := by
  decide

/-- C2 (amended): `_courses_match` succeeds exactly when one of the four rules
holds — (a) sidecar original title, (b) case-insensitive equality,
(c) equality after removing every character that is neither an ASCII lowercase
letter, a digit nor whitespace (whitespace is kept, so underscores are removed
while spaces remain, and accented letters are dropped), (d) substring
containment — tried in that order with the first success winning.
"Curso de Python Basico" matches "Curso de Python: Basico!" via rule (c),
rules (a) and (b) having failed. -/
theorem courses_match_rules_disjunction :
    (∀ (n1 n2 : String) (m : Option String),
      _courses_match n1 n2 m =
        (ruleSidecar n1 n2 m || ruleCaseInsensitive n1 n2 || ruleStripped n1 n2 ||
         ruleSubstring n1 n2)) ∧
    _courses_match "Curso de Python Basico" "Curso de Python: Basico!" none = true ∧
    ruleSidecar "Curso de Python Basico" "Curso de Python: Basico!" none = false ∧
    ruleCaseInsensitive "Curso de Python Basico" "Curso de Python: Basico!" = false ∧
    ruleStripped "Curso de Python Basico" "Curso de Python: Basico!" = true := by
  refine ⟨fun n1 n2 m => ?_, by decide, by decide, by decide, by decide⟩
  unfold _courses_match ruleSidecar ruleCaseInsensitive ruleStripped ruleSubstring
  cases h1 : matchByMetadata m (pyStrip (pyLower n2)) <;>
    cases h2 : pyStrip (pyLower n1) == pyStrip (pyLower n2) <;>
      cases h3 : normalizeCourseName (pyStrip (pyLower n1)) ==
          normalizeCourseName (pyStrip (pyLower n2)) <;>
        cases h4 : isSubstringList (pyStrip (pyLower n1)).data (pyStrip (pyLower n2)).data ||
            isSubstringList (pyStrip (pyLower n2)).data (pyStrip (pyLower n1)).data <;>
          simp [h1, h2, h3, h4]

/-- C4 (code evaluated at the failing input): when the destination does not
exist and the HTTP request raises a timeout (or a connection error),
`_download_file` does NOT return a failure result — the `TypeError` produced
by the invalid first `except` clause escapes, one request having been issued,
and the task is left in status "downloading" (not the terminal "failed") with
an empty error message. -/
theorem download_file_exception_escapes :
    (DownloadOptimization._download_file
        (DownloadOptimization.mkTask "https://api.example.org/f.pdf"
          "E:/Estrategia/C/A/f.pdf" "f.pdf" "pdf" "Aula 01")
        { file_exists := false, existing_size := 0, event := .timeout }).2.2 =
      Except.error (.typeError DownloadOptimization.invalidExceptMsg) ∧
    (DownloadOptimization._download_file
        (DownloadOptimization.mkTask "https://api.example.org/f.pdf"
          "E:/Estrategia/C/A/f.pdf" "f.pdf" "pdf" "Aula 01")
        { file_exists := false, existing_size := 0, event := .timeout }).1.status =
      "downloading" ∧
    (DownloadOptimization._download_file
        (DownloadOptimization.mkTask "https://api.example.org/f.pdf"
          "E:/Estrategia/C/A/f.pdf" "f.pdf" "pdf" "Aula 01")
        { file_exists := false, existing_size := 0, event := .timeout }).1.status ≠
      "failed" ∧
    (DownloadOptimization._download_file
        (DownloadOptimization.mkTask "https://api.example.org/f.pdf"
          "E:/Estrategia/C/A/f.pdf" "f.pdf" "pdf" "Aula 01")
        { file_exists := false, existing_size := 0, event := .timeout }).1.error_message =
      "" ∧
    (DownloadOptimization._download_file
        (DownloadOptimization.mkTask "https://api.example.org/f.pdf"
          "E:/Estrategia/C/A/f.pdf" "f.pdf" "pdf" "Aula 01")
        { file_exists := false, existing_size := 0, event := .timeout }).2.1 = 1 ∧
    (DownloadOptimization._download_file
        (DownloadOptimization.mkTask "https://api.example.org/f.pdf"
          "E:/Estrategia/C/A/f.pdf" "f.pdf" "pdf" "Aula 01")
        { file_exists := false, existing_size := 0, event := .connectionError }).2.2 =
      Except.error (.typeError DownloadOptimization.invalidExceptMsg) ∧
    (DownloadOptimization._download_file
        (DownloadOptimization.mkTask "https://api.example.org/f.pdf"
          "E:/Estrategia/C/A/f.pdf" "f.pdf" "pdf" "Aula 01")
        { file_exists := false, existing_size := 0, event := .connectionError }).1.status =
      "downloading" ∧
    (DownloadOptimization._download_file
        (DownloadOptimization.mkTask "https://api.example.org/f.pdf"
          "E:/Estrategia/C/A/f.pdf" "f.pdf" "pdf" "Aula 01")
        { file_exists := false, existing_size := 0,
          event := .connectionError }).1.error_message = "" := by
  exact ⟨rfl, rfl, by decide, rfl, rfl, rfl, rfl, rfl⟩

/-- C5 (counterexample): with a zero-byte file pre-created at the destination,
`ParallelVideoDownloader._download_single_video` returns a no-op success
without any request, but resolves the task as "completed", not "skipped". -/
theorem video_skip_status_counterexample :
    let t := VideoOptimization.mkVideoTask "https://api.example.org/v.mp4"
      "E:/Estrategia/C/A/v.mp4" "v.mp4" "720p" "Aula 01"
    let r := VideoOptimization._download_single_video t
      { file_exists := true, existing_size := 0, event := .timeout }
    r.1.status ≠ "skipped" ∧
    r.1.status = "completed" ∧
    r.2.1 = 0 ∧
    r.2.2 = (true, "already_exists") := by
  exact ⟨by decide, rfl, rfl, rfl⟩

/-- C5 (amended): whenever the destination path already exists — whatever the
network would have done — both fetchers return immediately as a no-op success
with zero HTTP requests; `ParallelDownloadManager._download_file` resolves the
task as "skipped", while `ParallelVideoDownloader._download_single_video`
marks it "completed". -/
theorem fetcher_exists_short_circuit :
    ∀ (t : DownloadOptimization.DownloadTask)
      (vt : VideoOptimization.VideoDownloadTask) (sz vsz : ℕ)
      (ev vev : DownloadOptimization.TryEvent),
      DownloadOptimization._download_file t
          { file_exists := true, existing_size := sz, event := ev } =
        ({ t with status := "skipped", bytes_downloaded := sz, total_bytes := sz },
         0, .ok (true, "already_exists", 0)) ∧
      VideoOptimization._download_single_video vt
          { file_exists := true, existing_size := vsz, event := vev } =
        ({ vt with status := "completed", total_bytes := vsz, bytes_downloaded := vsz },
         0, (true, "already_exists")) :=
  fun _ _ _ _ _ _ => ⟨rfl, rfl⟩

/-- C6 (counterexample): the flush is not atomic.  Persist a one-lesson
manifest, then run `finish_lesson` again with a write that errors after 0
characters: the previously persisted manifest text is destroyed (the file was
truncated in place by `open(..., 'w')` before the failure). -/
theorem save_manifest_not_atomic_counterexample :
    let m := ManifestService.start_lesson [] "Aula 01" "2024-01-01T00:00:00"
    let disk0 := ManifestService._save_manifest "" m .success
    (ManifestService.finish_lesson m disk0 "Aula 01" "2024-01-01T10:00:00"
        (.failAfter 0)).2 ≠ disk0 := by
  decide

/-- C6 (amended): the flush performed at lesson completion writes
`files_manifest.json` in place rather than atomically: `finish_lesson` stamps
`completed_at` and `_save_manifest` truncates the file on open and streams the
new serialization into it, so an error during the write leaves a prefix of the
NEW serialization (possibly empty) — the previous disk content never survives,
whatever it was — while a successful write leaves the full new serialization;
the exception itself is caught and logged. -/
theorem finish_lesson_in_place_write :
    ∀ (m0 : ManifestService.Manifest) (disk disk' title t0 t1 : String) (n : ℕ),
      (ManifestService.finish_lesson (ManifestService.start_lesson m0 title t0) disk
          title t1 (.failAfter n)).2 =
        String.mk ((ManifestService.json_dump
          (ManifestService.updateEntry (ManifestService.start_lesson m0 title t0) title
            fun e => { e with completed_at := some t1 })).data.take n) ∧
      (ManifestService.finish_lesson (ManifestService.start_lesson m0 title t0) disk
          title t1 .success).2 =
        ManifestService.json_dump
          (ManifestService.updateEntry (ManifestService.start_lesson m0 title t0) title
            fun e => { e with completed_at := some t1 }) ∧
      (ManifestService.finish_lesson (ManifestService.start_lesson m0 title t0) disk
          title t1 (.failAfter n)).2 =
        (ManifestService.finish_lesson (ManifestService.start_lesson m0 title t0) disk'
          title t1 (.failAfter n)).2 := by
  intro m0 disk disk' title t0 t1 n
  obtain ⟨e, he⟩ := lookup_start_lesson m0 title t0
  simp [ManifestService.finish_lesson, he, ManifestService._save_manifest]

namespace DownloadOptimization

/-- Each task contributes to exactly one counter, determined by its
environment. -/
theorem tally_foldl (l : List (DownloadTask × FetchEnv)) (acc : DownloadStats) :
    l.foldl (fun a te => tallyTask a te.1 te.2) acc =
      { total := acc.total,
        completed := acc.completed + (l.countP fun te => envCompletes te.2),
        failed := acc.failed + (l.countP fun te => envFails te.2),
        skipped := acc.skipped + (l.countP fun te => envSkips te.2) } := by
  induction l generalizing acc with
  | nil => simp
  | cons te t ih =>
    obtain ⟨task, env⟩ := te
    rw [List.foldl_cons, ih]
    unfold tallyTask _download_file envCompletes envFails envSkips
    cases hfe : env.file_exists <;> cases hev : env.event <;>
      simp [hfe, hev, List.countP_cons, envCompletes, envFails, envSkips,
        DownloadStats.mk.injEq] <;> omega

/-- `download_all` in closed form: the counters classify the tasks by their
environments. -/
theorem download_all_eq (l : List (DownloadTask × FetchEnv)) :
    download_all l =
      { total := l.length,
        completed := l.countP fun te => envCompletes te.2,
        failed := l.countP fun te => envFails te.2,
        skipped := l.countP fun te => envSkips te.2 } := by
  unfold download_all
  cases l with
  | nil => simp
  | cons te t =>
    rw [if_neg (by simp), tally_foldl]
    simp

/-- A failing environment is not a completing one. -/
theorem envFails_not_completes {e : FetchEnv} (h : envFails e = true) :
    envCompletes e = false := by
  unfold envFails at h
  unfold envCompletes
  cases hfe : e.file_exists <;> cases hev : e.event <;> simp_all

/-- A completing environment is neither failing nor skipping. -/
theorem envCompletes_not_fails {e : FetchEnv} (h : envCompletes e = true) :
    envFails e = false := by
  unfold envCompletes at h
  unfold envFails
  cases hfe : e.file_exists <;> cases hev : e.event <;> simp_all

end DownloadOptimization

/-- C3: with N queued tasks of which exactly one is forced to error (its
destination absent and its fetch raising — e.g. an unreachable URL raising
`ConnectionError`) while the other N-1 complete, `download_all` reports
`completed = N-1` and `failed = 1`.  The function is total in the embedding:
the exception escaping the failing worker is re-raised by `future.result()`
inside `download_all`'s collection loop and absorbed by its
`except Exception` arm into the `failed` counter, so `download_all` itself
does not raise, and the other tasks are tallied independently. -/
theorem download_all_failure_isolation :
    ∀ (pre post : List (DownloadOptimization.DownloadTask × DownloadOptimization.FetchEnv))
      (ft : DownloadOptimization.DownloadTask) (fe : DownloadOptimization.FetchEnv),
      (∀ te ∈ pre ++ post, DownloadOptimization.envCompletes te.2 = true) →
      DownloadOptimization.envFails fe = true →
      (DownloadOptimization.download_all (pre ++ (ft, fe) :: post)).completed =
          (pre ++ post).length ∧
      (DownloadOptimization.download_all (pre ++ (ft, fe) :: post)).failed = 1 ∧
      (DownloadOptimization.download_all (pre ++ (ft, fe) :: post)).total =
          (pre ++ post).length + 1 := by
  intro pre post ft fe hcomp hfail
  have hpre := fun te h => hcomp te (List.mem_append_left post h)
  have hpost := fun te h => hcomp te (List.mem_append_right pre h)
  rw [DownloadOptimization.download_all_eq]
  refine ⟨?_, ?_, by simp; omega⟩
  · have h1 : (pre.countP fun te => DownloadOptimization.envCompletes te.2) = pre.length :=
      List.countP_eq_length.mpr hpre
    have h2 : (post.countP fun te => DownloadOptimization.envCompletes te.2) = post.length :=
      List.countP_eq_length.mpr hpost
    simp [List.countP_append, List.countP_cons, h1, h2,
      DownloadOptimization.envFails_not_completes hfail]
  · have h1 : (pre.countP fun te => DownloadOptimization.envFails te.2) = 0 := by
      rw [List.countP_eq_zero]
      intro te h
      simp [DownloadOptimization.envCompletes_not_fails (hpre te h)]
    have h2 : (post.countP fun te => DownloadOptimization.envFails te.2) = 0 := by
      rw [List.countP_eq_zero]
      intro te h
      simp [DownloadOptimization.envCompletes_not_fails (hpost te h)]
    simp [List.countP_append, List.countP_cons, h1, h2, hfail]

/-- Witness for C3 at N = 2: one task completes (5 bytes in one chunk), one is
forced into a connection error; the statistics read completed 1, failed 1. -/
theorem download_all_failure_isolation_witness :
    (DownloadOptimization.download_all
        [(DownloadOptimization.mkTask "https://api.example.org/a.pdf" "E:/dl/a.pdf"
            "a.pdf" "pdf" "Aula 01",
          { file_exists := false, existing_size := 0, event := .ok 5 [5] }),
         (DownloadOptimization.mkTask "https://unreachable.example/b.pdf" "E:/dl/b.pdf"
            "b.pdf" "pdf" "Aula 01",
          { file_exists := false, existing_size := 0, event := .connectionError })]).completed
        = 1 ∧
    (DownloadOptimization.download_all
        [(DownloadOptimization.mkTask "https://api.example.org/a.pdf" "E:/dl/a.pdf"
            "a.pdf" "pdf" "Aula 01",
          { file_exists := false, existing_size := 0, event := .ok 5 [5] }),
         (DownloadOptimization.mkTask "https://unreachable.example/b.pdf" "E:/dl/b.pdf"
            "b.pdf" "pdf" "Aula 01",
          { file_exists := false, existing_size := 0, event := .connectionError })]).failed
        = 1 := by
  have h := download_all_failure_isolation
    [(DownloadOptimization.mkTask "https://api.example.org/a.pdf" "E:/dl/a.pdf"
        "a.pdf" "pdf" "Aula 01",
      { file_exists := false, existing_size := 0, event := .ok 5 [5] })]
    []
    (DownloadOptimization.mkTask "https://unreachable.example/b.pdf" "E:/dl/b.pdf"
      "b.pdf" "pdf" "Aula 01")
    { file_exists := false, existing_size := 0, event := .connectionError }
    (by decide) (by decide)
  simpa using ⟨h.1, h.2.1⟩

namespace ManifestService

/-- Every lesson entry ever produced by an operation run satisfies
`total_files = len(files)`. -/
theorem runOps_consistent (ops : List ManifestOp) :
    ∀ p ∈ runOps ops, p.2.total_files = p.2.files.length := by
  suffices h : ∀ (m : Manifest), (∀ p ∈ m, p.2.total_files = p.2.files.length) →
      ∀ p ∈ ops.foldl applyOp m, p.2.total_files = p.2.files.length by
    exact h [] (by simp)
  induction ops with
  | nil => intro m hm; simpa using hm
  | cons op t ih =>
    intro m hm
    rw [List.foldl_cons]
    refine ih (applyOp m op) ?_
    intro p hp
    match op with
    | .start title now =>
      simp only [applyOp, start_lesson] at hp
      rcases hlk : m.lookup title with _ | e <;> rw [hlk] at hp
      · rcases List.mem_append.mp hp with h | h
        · exact hm p h
        · simp only [List.mem_singleton] at h
          subst h
          rfl
      · exact hm p hp
    | .addFile title nm sz ft dt st now =>
      simp only [applyOp, add_file, updateEntry, List.mem_map] at hp
      obtain ⟨q, hq, hpq⟩ := hp
      by_cases ht : q.1 == title
      · rw [if_pos ht] at hpq
        subst hpq
        simp
      · rw [if_neg ht] at hpq
        subst hpq
        have hq' : q ∈ start_lesson m title now := hq
        simp only [start_lesson] at hq'
        rcases hlk : m.lookup title with _ | e <;> rw [hlk] at hq'
        · rcases List.mem_append.mp hq' with h | h
          · exact hm q h
          · simp only [List.mem_singleton] at h
            subst h
            rfl
        · exact hm q hq'

/-- C10: starting from an empty manifest, after any sequence of
`start_lesson` / `add_file` operations every lesson entry satisfies
`total_files = len(files)` (each `add_file` appends one record and resets
`total_files` to the list length), and therefore the file count reported by
`get_course_statistics` — a sum of the stored `total_files` fields — equals
the true number of recorded file records. -/
theorem manifest_total_files_invariant :
    ∀ ops : List ManifestService.ManifestOp,
      (∀ p ∈ ManifestService.runOps ops, p.2.total_files = p.2.files.length) ∧
      (ManifestService.get_course_statistics (ManifestService.runOps ops)).total_files =
        ((ManifestService.runOps ops).map fun p => (p.2.files.length : ℤ)).sum := by
  intro ops
  have hc := ManifestService.runOps_consistent ops
  refine ⟨hc, ?_⟩
  unfold ManifestService.get_course_statistics
  have : ((ManifestService.runOps ops).map fun p => (p.2.total_files : ℤ)) =
      ((ManifestService.runOps ops).map fun p => (p.2.files.length : ℤ)) := by
    refine List.map_congr_left ?_
    intro p hp
    rw [hc p hp]
  rw [this]

/-- `traverseOption` over a mapped list. -/
theorem traverseOption_map {α β γ : Type} (l : List α) (g : α → β) (h : β → Option γ) :
    traverseOption h (l.map g) = traverseOption (fun a => h (g a)) l := by
  induction l with
  | nil => rfl
  | cons a t ih => simp [traverseOption, ih]

/-- `traverseOption` of a pointwise-successful reader. -/
theorem traverseOption_some {α β : Type} (l : List α) (h : α → Option β) (k : α → β)
    (H : ∀ a ∈ l, h a = some (k a)) :
    traverseOption h l = some (l.map k) := by
  induction l with
  | nil => rfl
  | cons a t ih =>
    have ha := H a (by simp)
    have ht := ih fun b hb => H b (by simp [hb])
    simp [traverseOption, ha, ht]

/-- The reloaded lesson object yields its `total_files` back. -/
theorem jsonTotalFiles_encode (e : LessonEntry) :
    jsonTotalFiles (encodeLessonEntry e) = some (e.total_files : ℤ) := rfl

/-- The reloaded lesson object yields its `files` list back. -/
theorem jsonFiles_encode (e : LessonEntry) :
    jsonFiles (encodeLessonEntry e) = some (e.files.map encodeFileEntry) := rfl

/-- The reloaded file record yields its `size_bytes` back. -/
theorem jsonSizeBytes_encode (f : FileEntry) :
    jsonSizeBytes (encodeFileEntry f) = some f.size_bytes := rfl

/-- C7: saving an in-memory manifest and reloading it yields a manifest whose
aggregate statistics (lesson count, file count, total bytes, and the derived
MB/GB figures) coincide with those of the original manifest: the keys
`_save_manifest` writes are exactly the ones the statistics reader
subscripts, and their values reparse unchanged. -/
theorem manifest_statistics_round_trip :
    ∀ m : ManifestService.Manifest,
      ManifestService.get_course_statistics_json
          (ManifestService._load_manifest (some (ManifestService.encodeManifest m))) =
        some (ManifestService.get_course_statistics m) := by
  intro m
  show (traverseOption (fun p => ManifestService.jsonTotalFiles p.2)
        (m.map fun p => (p.1, ManifestService.encodeLessonEntry p.2))).bind _ = _
  rw [traverseOption_map,
    traverseOption_some _ _ (fun p => ((p.2 : ManifestService.LessonEntry).total_files : ℤ))
      (fun p _ => jsonTotalFiles_encode p.2)]
  simp only [Option.some_bind]
  rw [traverseOption_map,
    traverseOption_some _ _
      (fun p => (p.2 : ManifestService.LessonEntry).files.map ManifestService.encodeFileEntry)
      (fun p _ => jsonFiles_encode p.2)]
  simp only [Option.some_bind]
  have hflat : (m.map fun p =>
        (p.2 : ManifestService.LessonEntry).files.map ManifestService.encodeFileEntry).flatten =
      (m.map fun p => (p.2 : ManifestService.LessonEntry).files).flatten.map
        ManifestService.encodeFileEntry := by
    rw [List.map_flatten, List.map_map]
    rfl
  rw [hflat, traverseOption_map,
    traverseOption_some _ _ (fun f => (f : ManifestService.FileEntry).size_bytes)
      (fun f _ => jsonSizeBytes_encode f)]
  simp only [Option.some_bind]
  unfold ManifestService.get_course_statistics
  simp [List.map_flatten, List.sum_flatten, List.map_map, Function.comp_def]

end ManifestService

/-- Skipping a run is the same as dropping the run's characters first. -/
theorem collapseAux_true_eq (p : Char → Bool) (rep : Char) (l : List Char) :
    collapseAux p rep l true = collapseAux p rep (l.dropWhile p) false := by
  induction l with
  | nil => rfl
  | cons c t ih =>
    by_cases h : p c
    · simp [collapseAux, List.dropWhile_cons, h, ih]
    · simp [collapseAux, List.dropWhile_cons, h]

/-- Characters of a collapsed list: untouched non-class characters of the
input, or the replacement character. -/
theorem mem_collapseAux (p : Char → Bool) (rep : Char) :
    ∀ (l : List Char) (b : Bool) (c : Char), c ∈ collapseAux p rep l b →
      (c ∈ l ∧ p c = false) ∨ c = rep := by
  intro l
  induction l with
  | nil => intro b c h; simp [collapseAux] at h
  | cons d t ih =>
    intro b c h
    by_cases hd : p d
    · have h' : c ∈ collapseAux p rep t true ∨ c = rep := by
        cases b with
        | true => exact .inl (by simpa [collapseAux, hd] using h)
        | false =>
          rcases List.mem_cons.mp (by simpa [collapseAux, hd] using h) with h | h
          · exact .inr h
          · exact .inl h
      rcases h' with h' | h'
      · rcases ih true c h' with ⟨hm, hp⟩ | hr
        · exact .inl ⟨List.mem_cons_of_mem d hm, hp⟩
        · exact .inr hr
      · exact .inr h'
    · have h' : c = d ∨ c ∈ collapseAux p rep t false := by
        cases b with
        | true => exact List.mem_cons.mp (by simpa [collapseAux, hd] using h)
        | false => exact List.mem_cons.mp (by simpa [collapseAux, hd] using h)
      rcases h' with h' | h'
      · subst h'
        exact .inl ⟨List.mem_cons_self c t, by simpa using hd⟩
      · rcases ih false c h' with ⟨hm, hp⟩ | hr
        · exact .inl ⟨List.mem_cons_of_mem d hm, hp⟩
        · exact .inr hr

/-- Output produced while inside a run starts with a non-class character. -/
theorem head_collapseAux_true (p : Char → Bool) (rep : Char) :
    ∀ (l : List Char) (c : Char),
      (collapseAux p rep l true).head? = some c → p c = false := by
  intro l
  induction l with
  | nil => intro c h; simp [collapseAux] at h
  | cons d t ih =>
    intro c h
    by_cases hd : p d
    · exact ih c (by simpa [collapseAux, hd] using h)
    · have hdc : d = c := by simpa [collapseAux, hd] using h
      rw [← hdc]
      simpa using hd

/-- A collapsed list never has two adjacent class characters. -/
theorem chain'_collapseAux (p : Char → Bool) (rep : Char) :
    ∀ (l : List Char) (b : Bool),
      List.Chain' (fun a b => ¬(p a = true ∧ p b = true)) (collapseAux p rep l b) := by
  intro l
  induction l with
  | nil => intro b; simp [collapseAux]
  | cons d t ih =>
    intro b
    by_cases hd : p d
    · cases b with
      | true => simpa [collapseAux, hd] using ih true
      | false =>
        have : collapseAux p rep (d :: t) false = rep :: collapseAux p rep t true := by
          simp [collapseAux, hd]
        rw [this, List.chain'_cons']
        refine ⟨fun y hy => ?_, ih true⟩
        have := head_collapseAux_true p rep t y hy
        simp [this]
    · have : collapseAux p rep (d :: t) b = d :: collapseAux p rep t false := by
        cases b <;> simp [collapseAux, hd]
      rw [this, List.chain'_cons']
      exact ⟨fun y hy => by simp [hd], ih false⟩

/-- Collapsing is the identity on lists that are already collapsed: no two
adjacent class characters, and every class character already equal to the
replacement (which is itself in the class). -/
theorem collapseAux_of_wellformed (p : Char → Bool) (rep : Char) (_hrep : p rep = true) :
    ∀ l : List Char,
      List.Chain' (fun a b => ¬(p a = true ∧ p b = true)) l →
      (∀ c ∈ l, p c = true → c = rep) →
      collapseAux p rep l false = l := by
  intro l
  induction l with
  | nil => intro _ _; rfl
  | cons d t ih =>
    intro hch hrp
    rw [List.chain'_cons'] at hch
    obtain ⟨hhd, hch⟩ := hch
    by_cases hd : p d
    · have hdr : d = rep := hrp d (List.mem_cons_self d t) hd
      have hdw : t.dropWhile p = t := by
        cases t with
        | nil => rfl
        | cons e t' =>
          have hne := hhd e rfl
          have hpe : p e = false := by
            cases hv : p e
            · rfl
            · exact absurd ⟨hd, hv⟩ hne
          simp [List.dropWhile_cons, hpe]
      have h1 : collapseAux p rep (d :: t) false = rep :: collapseAux p rep t true := by
        simp [collapseAux, hd]
      rw [h1, collapseAux_true_eq, hdw,
        ih hch fun c hc hpc => hrp c (List.mem_cons_of_mem d hc) hpc, hdr]
    · have h1 : collapseAux p rep (d :: t) false = d :: collapseAux p rep t false := by
        simp [collapseAux, hd]
      rw [h1, ih hch fun c hc hpc => hrp c (List.mem_cons_of_mem d hc) hpc]

/-- Dropping a trailing block yields a prefix. -/
theorem dropTrailing_isPrefixOf (p : Char → Bool) (l : List Char) :
    dropTrailing p l <+: l := by
  refine ⟨(l.reverse.takeWhile p).reverse, ?_⟩
  unfold dropTrailing
  rw [← List.reverse_append, List.takeWhile_append_dropWhile, List.reverse_reverse]

/-- Stripping both ends only removes characters. -/
theorem pyStripList_subset (p : Char → Bool) (l : List Char) :
    ∀ c ∈ pyStripList p l, c ∈ l := fun _c hc =>
  (List.dropWhile_suffix p).subset ((dropTrailing_isPrefixOf p (l.dropWhile p)).subset hc)

/-- The head surviving `dropWhile` fails the predicate. -/
theorem head_dropWhile_not (p : Char → Bool) :
    ∀ (l : List Char) (c : Char), (l.dropWhile p).head? = some c → p c = false := by
  intro l
  induction l with
  | nil => intro c h; simp at h
  | cons d t ih =>
    intro c h
    by_cases hd : p d
    · exact ih c (by simpa [List.dropWhile_cons, hd] using h)
    · have hdc : d = c := by simpa [List.dropWhile_cons, hd] using h
      rw [← hdc]
      simpa using hd

/-- The head of a stripped list fails the predicate. -/
theorem head_pyStripList (p : Char → Bool) (l : List Char) (c : Char)
    (h : (pyStripList p l).head? = some c) : p c = false := by
  obtain ⟨t, ht⟩ := dropTrailing_isPrefixOf p (l.dropWhile p)
  rcases hdt : pyStripList p l with _ | ⟨c', r⟩
  · rw [hdt] at h; simp at h
  · rw [hdt] at h
    have hc : c' = c := by simpa using h
    have hdw : l.dropWhile p = c' :: (r ++ t) := by
      rw [← ht]
      unfold pyStripList at hdt
      rw [hdt]
      rfl
    refine head_dropWhile_not p l c ?_
    rw [hdw, hc]
    rfl

/-- The last character of a stripped list fails the predicate. -/
theorem getLast_pyStripList (p : Char → Bool) (l : List Char) (c : Char)
    (h : (pyStripList p l).getLast? = some c) : p c = false := by
  unfold pyStripList dropTrailing at h
  rw [List.getLast?_reverse] at h
  exact head_dropWhile_not p (l.dropWhile p).reverse c h

/-- `dropWhile` is the identity when the head fails the predicate. -/
theorem dropWhile_eq_self_of_head (p : Char → Bool) (l : List Char)
    (h : ∀ c, l.head? = some c → p c = false) : l.dropWhile p = l := by
  cases l with
  | nil => rfl
  | cons d t => simp [List.dropWhile_cons, h d rfl]

/-- Stripping is idempotent. -/
theorem pyStripList_idem (p : Char → Bool) (l : List Char) :
    pyStripList p (pyStripList p l) = pyStripList p l := by
  have h1 : (pyStripList p l).dropWhile p = pyStripList p l :=
    dropWhile_eq_self_of_head p _ fun c hc => head_pyStripList p l c hc
  have h2 : (pyStripList p l).reverse.dropWhile p = (pyStripList p l).reverse := by
    refine dropWhile_eq_self_of_head p _ fun c hc => ?_
    rw [List.head?_reverse] at hc
    exact getLast_pyStripList p l c hc
  show dropTrailing p ((pyStripList p l).dropWhile p) = pyStripList p l
  rw [h1]
  unfold dropTrailing
  rw [h2, List.reverse_reverse]

/-- Stripping is the identity on lists with no class character at all. -/
theorem pyStripList_no_p (p : Char → Bool) (l : List Char)
    (h : ∀ c ∈ l, p c = false) : pyStripList p l = l := by
  have hhead : ∀ (x : List Char) (c : Char), x.head? = some c → c ∈ x := by
    intro x c hc
    cases x with
    | nil => simp at hc
    | cons d t =>
      have hdc : d = c := by simpa using hc
      rw [← hdc]
      exact List.mem_cons_self d t
  have h1 : l.dropWhile p = l :=
    dropWhile_eq_self_of_head p _ fun c hc => h c (hhead l c hc)
  have h2 : l.reverse.dropWhile p = l.reverse := by
    refine dropWhile_eq_self_of_head p _ fun c hc => ?_
    exact h c ((List.mem_reverse).mp (hhead l.reverse c hc))
  show dropTrailing p (l.dropWhile p) = l
  rw [h1]
  unfold dropTrailing
  rw [h2, List.reverse_reverse]

namespace FileUtils

/-- Replaced text contains no forbidden character. -/
theorem mem_replaceInvalid (l : List Char) :
    ∀ c ∈ replaceInvalid l, isInvalidFilenameChar c = false := by
  intro c hc
  obtain ⟨d, _, hd⟩ := List.mem_map.mp hc
  by_cases h : isInvalidFilenameChar d
  · rw [if_pos h] at hd
    subst hd
    decide
  · rw [if_neg h] at hd
    subst hd
    simpa using h

/-- Replacement is the identity when nothing is forbidden. -/
theorem replaceInvalid_id (l : List Char)
    (h : ∀ c ∈ l, isInvalidFilenameChar c = false) : replaceInvalid l = l := by
  unfold replaceInvalid
  rw [List.map_congr_left fun c hc => if_neg (by simp [h c hc]), List.map_id']

/-- Characters of a cleaned list: nothing forbidden, and every whitespace
character is a plain space. -/
theorem mem_cleaned (l : List Char) :
    ∀ c ∈ cleaned l, isInvalidFilenameChar c = false ∧ (isPySpace c = true → c = ' ') := by
  intro c hc
  have hc2 := pyStripList_subset isPySpace _ c hc
  rcases mem_collapseAux isPySpace ' ' (replaceInvalid l) false c hc2 with ⟨hm, hp⟩ | hr
  · exact ⟨mem_replaceInvalid l c hm, fun hw => absurd hw (by simp [hp])⟩
  · subst hr
    exact ⟨by decide, fun _ => rfl⟩

/-- Cleaning is idempotent. -/
theorem cleaned_idem (l : List Char) : cleaned (cleaned l) = cleaned l := by
  have hrep : replaceInvalid (cleaned l) = cleaned l :=
    replaceInvalid_id _ fun c hc => (mem_cleaned l c hc).1
  have hch : List.Chain' (fun a b => ¬(isPySpace a = true ∧ isPySpace b = true)) (cleaned l) := by
    refine List.Chain'.prefix ?_ (dropTrailing_isPrefixOf isPySpace _)
    refine List.Chain'.suffix ?_ (List.dropWhile_suffix isPySpace)
    exact chain'_collapseAux isPySpace ' ' (replaceInvalid l) false
  have hcol : collapseRuns isPySpace ' ' (cleaned l) = cleaned l :=
    collapseAux_of_wellformed isPySpace ' ' (by decide) _ hch
      fun c hc hw => (mem_cleaned l c hc).2 hw
  show pyStripList isPySpace (collapseRuns isPySpace ' ' (replaceInvalid (cleaned l))) = _
  rw [hrep, hcol]
  exact pyStripList_idem isPySpace _

/-- `os.path.splitext` splits the list into two complementary parts. -/
theorem pySplitext_append (l : List Char) :
    (pySplitext l).1 ++ (pySplitext l).2 = l := by
  unfold pySplitext
  split
  · split
    · simp
    · simp
  · simp

/-- A Python slice only keeps characters of the input. -/
theorem pySliceTo_subset (l : List Char) (k : ℤ) :
    ∀ c ∈ pySliceTo l k, c ∈ l := by
  intro c hc
  unfold pySliceTo at hc
  split at hc
  · exact List.take_subset _ _ hc
  · exact List.take_subset _ _ hc

/-- Truncation only removes characters. -/
theorem truncateName_subset (n : ℕ) (l : List Char) :
    ∀ c ∈ truncateName n l, c ∈ l := by
  intro c hc
  unfold truncateName at hc
  split at hc
  · rcases List.mem_append.mp hc with h | h
    · have h1 : c ∈ (pySplitext l).1 := pySliceTo_subset _ _ c h
      have h2 : c ∈ (pySplitext l).1 ++ (pySplitext l).2 := List.mem_append.mpr (Or.inl h1)
      rw [pySplitext_append] at h2
      exact h2
    · have h2 : c ∈ (pySplitext l).1 ++ (pySplitext l).2 := List.mem_append.mpr (Or.inr h)
      rw [pySplitext_append] at h2
      exact h2
  · exact hc

/-- Truncation is the identity within the cap. -/
theorem truncateName_of_le (n : ℕ) (l : List Char) (h : l.length ≤ n) :
    truncateName n l = l := by
  unfold truncateName
  rw [if_neg (by omega)]

end FileUtils

/-- C8 (amended): the output of `sanitize_filename` never contains a
forbidden character (`< > : " / \ | ? *` or a control character) — they are
all replaced by spaces up front and no later step reintroduces any — and
`sanitize(sanitize x) = sanitize x` holds for every input whose cleaned form
(forbidden characters replaced, whitespace runs collapsed, ends stripped)
fits within `max_length`.  Unconditional idempotence fails: when the
truncation step fires it can cut just before a space or be defeated by an
over-long extension, and a second application then differs. -/
theorem sanitize_no_forbidden_and_conditional_idempotence :
    ∀ s : String,
      (∀ c ∈ (FileUtils.sanitize_filename 200 s).data,
        FileUtils.isInvalidFilenameChar c = false) ∧
      ((FileUtils.cleaned s.data).length ≤ 200 →
        FileUtils.sanitize_filename 200 (FileUtils.sanitize_filename 200 s) =
          FileUtils.sanitize_filename 200 s) := by
  have hunnamed : ∀ c ∈ ("unnamed_file" : String).data,
      FileUtils.isInvalidFilenameChar c = false := by decide
  have hfix : FileUtils.sanitize_filename 200 "unnamed_file" = "unnamed_file" := by decide
  intro s
  constructor
  · intro c hc
    unfold FileUtils.sanitize_filename at hc
    by_cases hs : s.data.isEmpty
    · rw [if_pos hs] at hc
      exact hunnamed c hc
    · rw [if_neg hs] at hc
      simp only [] at hc
      by_cases ht : (FileUtils.truncateName 200 (FileUtils.cleaned s.data)).isEmpty
      · rw [if_pos ht] at hc
        exact hunnamed c hc
      · rw [if_neg ht] at hc
        have hmem : c ∈ FileUtils.truncateName 200 (FileUtils.cleaned s.data) := hc
        exact (FileUtils.mem_cleaned s.data c
          (FileUtils.truncateName_subset 200 _ c hmem)).1
  · intro hlen
    by_cases hs : s.data.isEmpty
    · rw [show FileUtils.sanitize_filename 200 s = "unnamed_file" from by
        unfold FileUtils.sanitize_filename; rw [if_pos hs]]
      exact hfix
    · have hout : FileUtils.sanitize_filename 200 s =
          (if (FileUtils.cleaned s.data).isEmpty then "unnamed_file"
           else String.mk (FileUtils.cleaned s.data)) := by
        unfold FileUtils.sanitize_filename
        rw [if_neg hs, FileUtils.truncateName_of_le 200 _ hlen]
      by_cases hcl : (FileUtils.cleaned s.data).isEmpty
      · rw [hout, if_pos hcl]
        exact hfix
      · rw [hout, if_neg hcl]
        unfold FileUtils.sanitize_filename
        rw [if_neg (show ¬((String.mk (FileUtils.cleaned s.data)).data.isEmpty = true)
          from hcl)]
        show (if (FileUtils.truncateName 200
                (FileUtils.cleaned (FileUtils.cleaned s.data))).isEmpty = true then
            "unnamed_file"
          else String.mk (FileUtils.truncateName 200
            (FileUtils.cleaned (FileUtils.cleaned s.data)))) =
          String.mk (FileUtils.cleaned s.data)
        rw [FileUtils.cleaned_idem, FileUtils.truncateName_of_le 200 _ hlen, if_neg hcl]

/-- Witness for C8 at the input "Aula 01: Intro": its cleaned form is short,
so the theorem applies and a second sanitization changes nothing. -/
theorem sanitize_conditional_idempotence_witness :
    (FileUtils.cleaned ("Aula 01: Intro" : String).data).length ≤ 200 ∧
    FileUtils.sanitize_filename 200 (FileUtils.sanitize_filename 200 "Aula 01: Intro") =
      FileUtils.sanitize_filename 200 "Aula 01: Intro" :=
  ⟨by decide,
   (sanitize_no_forbidden_and_conditional_idempotence "Aula 01: Intro").2 (by decide)⟩

/-- The head of a list is a member. -/
theorem head_mem_list {α : Type} {l : List α} {c : α} (h : l.head? = some c) : c ∈ l := by
  cases l with
  | nil => simp at h
  | cons d t =>
    have hdc : d = c := by simpa using h
    rw [← hdc]
    exact List.mem_cons_self d t

/-- `intercalate` over at least two segments. -/
theorem intercalate_cons_cons (sep x y : List Char) (rest : List (List Char)) :
    List.intercalate sep (x :: y :: rest) = x ++ sep ++ List.intercalate sep (y :: rest) := by
  unfold List.intercalate
  show (x :: sep :: List.intersperse sep (y :: rest)).flatten = _
  simp [List.append_assoc]

/-- `intercalate` over one segment. -/
theorem intercalate_single (sep x : List Char) : List.intercalate sep [x] = x := by
  simp [List.intercalate]

/-- The run-collapsing pass and the maximal-run decomposition agree:
collapsing with `rep` is rejoining the decomposition's segments with single
`rep`s.  Proved together with the invariants of `specSplitAux`: the `true`
flag means the list opens with a run, in which case the segment list starts
with an empty segment followed by at least one more. -/
theorem specSplitAux_collapse (p : Char → Bool) (rep : Char) :
    ∀ l : List Char,
      collapseAux p rep l false =
        List.intercalate [rep] (MainScript.specSplitAux p l).1 ∧
      ((MainScript.specSplitAux p l).2 = true →
        collapseAux p rep l true =
          List.intercalate [rep] (MainScript.specSplitAux p l).1.tail) ∧
      ((MainScript.specSplitAux p l).2 = false →
        collapseAux p rep l true =
          List.intercalate [rep] (MainScript.specSplitAux p l).1) ∧
      ((MainScript.specSplitAux p l).2 = true →
        (MainScript.specSplitAux p l).1.head? = some [] ∧
        (MainScript.specSplitAux p l).1.tail ≠ []) ∧
      (MainScript.specSplitAux p l).1 ≠ [] := by
  intro l
  induction l with
  | nil =>
    refine ⟨rfl, ?_, fun _ => rfl, ?_, ?_⟩ <;> simp [MainScript.specSplitAux]
  | cons c t ih =>
    obtain ⟨Pt, Qt1, Qt2, Rt, St⟩ := ih
    rcases hst : MainScript.specSplitAux p t with ⟨segs, headRun⟩
    rw [hst] at Pt Qt1 Qt2 Rt St
    simp only [] at Pt Qt1 Qt2 Rt St
    by_cases hc : p c
    · have hfalse : collapseAux p rep (c :: t) false = rep :: collapseAux p rep t true := by
        simp [collapseAux, hc]
      have htrue : collapseAux p rep (c :: t) true = collapseAux p rep t true := by
        simp [collapseAux, hc]
      cases headRun with
      | true =>
        obtain ⟨hhd, htl⟩ := Rt rfl
        rcases hsegs : segs with _ | ⟨s0, rest⟩
        · exact absurd hsegs St
        · rw [hsegs] at hhd htl Qt1
          have hs0 : s0 = [] := by simpa using hhd
          subst hs0
          simp only [List.tail_cons] at Qt1 htl
          have hqt := Qt1 (by trivial)
          have hspec : MainScript.specSplitAux p (c :: t) = ([] :: rest, true) := by
            simp [MainScript.specSplitAux, hst, hc, hsegs]
          rw [hspec]
          rcases hrest : rest with _ | ⟨r0, rest'⟩
          · exact absurd hrest htl
          · subst hrest
            refine ⟨?_, fun _ => ?_, fun hcontra => by simp at hcontra,
              fun _ => ⟨rfl, by simp⟩, by simp⟩
            · show collapseAux p rep (c :: t) false =
                List.intercalate [rep] ([] :: r0 :: rest')
              rw [hfalse, hqt, intercalate_cons_cons]
              simp
            · show collapseAux p rep (c :: t) true =
                List.intercalate [rep] (r0 :: rest')
              rw [htrue, hqt]
      | false =>
        have hqt := Qt2 (by trivial)
        have hspec : MainScript.specSplitAux p (c :: t) = ([] :: segs, true) := by
          simp [MainScript.specSplitAux, hst, hc]
        rw [hspec]
        rcases hsegs : segs with _ | ⟨s0, rest⟩
        · exact absurd hsegs St
        · subst hsegs
          refine ⟨?_, fun _ => ?_, fun hcontra => by simp at hcontra,
            fun _ => ⟨rfl, by simp⟩, by simp⟩
          · show collapseAux p rep (c :: t) false =
              List.intercalate [rep] ([] :: s0 :: rest)
            rw [hfalse, hqt, intercalate_cons_cons]
            simp
          · show collapseAux p rep (c :: t) true =
              List.intercalate [rep] (s0 :: rest)
            rw [htrue, hqt]
    · rcases hsegs : segs with _ | ⟨s0, rest⟩
      · exact absurd hsegs St
      · subst hsegs
        rw [List.tail_cons] at Qt1
        have hspec : MainScript.specSplitAux p (c :: t) = ((c :: s0) :: rest, false) := by
          simp [MainScript.specSplitAux, hst, hc]
        rw [hspec]
        have hfalse : collapseAux p rep (c :: t) false = c :: collapseAux p rep t false := by
          simp [collapseAux, hc]
        have htrue : collapseAux p rep (c :: t) true = c :: collapseAux p rep t false := by
          simp [collapseAux, hc]
        have hgoal : c :: List.intercalate [rep] (s0 :: rest) =
            List.intercalate [rep] ((c :: s0) :: rest) := by
          rcases rest with _ | ⟨r0, rest'⟩
          · rw [intercalate_single, intercalate_single]
          · rw [intercalate_cons_cons, intercalate_cons_cons]
            simp
        refine ⟨?_, fun hcontra => by simp at hcontra, fun _ => ?_,
          fun hcontra => by simp at hcontra, by simp⟩
        · show collapseAux p rep (c :: t) false =
            List.intercalate [rep] ((c :: s0) :: rest)
          rw [hfalse, Pt, hgoal]
        · show collapseAux p rep (c :: t) true =
            List.intercalate [rep] ((c :: s0) :: rest)
          rw [htrue, Pt, hgoal]

/-- The code's regular-expression pass in decomposition form. -/
theorem collapseRuns_intercalate (p : Char → Bool) (rep : Char) (l : List Char) :
    collapseRuns p rep l =
      List.intercalate [rep] (MainScript.specSplit p l) :=
  (specSplitAux_collapse p rep l).1

/-- C9: for every input title, the sanitizer of `src/main.py` (a) equals the
specification-side pipeline "remove forbidden characters, remove dots and
commas, replace every maximal run of whitespace/hyphen characters by a single
underscore, trim separators/punctuation from the ends"; (b) leaves no
whitespace, hyphen, dot or comma anywhere in the output; and (c) leaves no
separator (`. _ - space`, nor any whitespace) at either end of the output. -/
theorem sanitize_main_run_collapse :
    ∀ s : String,
      MainScript.sanitize_filename s =
        String.mk (pyStripList isPySpace (pyStripList MainScript.isTrimChar
          (List.intercalate ['_'] (MainScript.specSplit MainScript.isSepChar
            ((s.data.filter fun c => !MainScript.isRemovedChar c).filter fun c =>
              !(c == '.' || c == ',')))))) ∧
      (∀ c ∈ (MainScript.sanitize_filename s).data,
        MainScript.isSepChar c = false ∧ c ≠ '.' ∧ c ≠ ',') ∧
      ((MainScript.sanitize_filename s).data.head?).all
        (fun c => !(MainScript.isTrimChar c || isPySpace c)) = true ∧
      ((MainScript.sanitize_filename s).data.getLast?).all
        (fun c => !(MainScript.isTrimChar c || isPySpace c)) = true := by
  intro s
  have hmem : ∀ c ∈ (MainScript.sanitize_filename s).data,
      MainScript.isSepChar c = false ∧ c ≠ '.' ∧ c ≠ ',' := by
    intro c hc
    have hc1 := pyStripList_subset isPySpace _ c hc
    have hc2 := pyStripList_subset MainScript.isTrimChar _ c hc1
    rcases mem_collapseAux MainScript.isSepChar '_' _ false c hc2 with ⟨hm, hp⟩ | hr
    · have hflt := (List.mem_filter.mp hm).2
      refine ⟨hp, ?_, ?_⟩ <;> intro hcontra <;> rw [hcontra] at hflt <;> simp at hflt
    · subst hr
      refine ⟨by decide, by decide, by decide⟩
  have hnows : ∀ c ∈ pyStripList MainScript.isTrimChar
      (collapseRuns MainScript.isSepChar '_'
        ((s.data.filter fun c => !MainScript.isRemovedChar c).filter fun c =>
          !(c == '.' || c == ','))), isPySpace c = false := by
    intro c hc
    have hc2 := pyStripList_subset MainScript.isTrimChar _ c hc
    rcases mem_collapseAux MainScript.isSepChar '_' _ false c hc2 with ⟨_, hp⟩ | hr
    · cases hw : isPySpace c
      · rfl
      · exact absurd hp (by simp [MainScript.isSepChar, hw])
    · subst hr
      decide
  have houtput : (MainScript.sanitize_filename s).data =
      pyStripList MainScript.isTrimChar
        (collapseRuns MainScript.isSepChar '_'
          ((s.data.filter fun c => !MainScript.isRemovedChar c).filter fun c =>
            !(c == '.' || c == ','))) := by
    show pyStripList isPySpace _ = _
    exact pyStripList_no_p isPySpace _ hnows
  refine ⟨?_, hmem, ?_, ?_⟩
  · show String.mk (pyStripList isPySpace (pyStripList MainScript.isTrimChar
        (collapseRuns MainScript.isSepChar '_' _))) = _
    rw [collapseRuns_intercalate]
  · cases hh : (MainScript.sanitize_filename s).data.head? with
    | none => rfl
    | some c =>
      have hns : isPySpace c = false := by
        rw [houtput] at hh
        exact hnows c (head_mem_list hh)
      have hnt : MainScript.isTrimChar c = false := by
        rw [houtput] at hh
        exact head_pyStripList MainScript.isTrimChar _ c hh
      simp [Option.all, hns, hnt]
  · cases hh : (MainScript.sanitize_filename s).data.getLast? with
    | none => rfl
    | some c =>
      have hmemc : c ∈ (MainScript.sanitize_filename s).data := by
        have hrev := List.head?_reverse (MainScript.sanitize_filename s).data
        rw [hh] at hrev
        exact (List.mem_reverse).mp (head_mem_list hrev)
      have hns : isPySpace c = false := by
        rw [houtput] at hmemc
        exact hnows c hmemc
      have hnt : MainScript.isTrimChar c = false := by
        rw [houtput] at hh
        exact getLast_pyStripList MainScript.isTrimChar _ c hh
      simp [Option.all, hns, hnt]

/-- Witness for C9 at the title " -Aula 01- ": the character `A` of the
output is neither a separator nor punctuation. -/
theorem sanitize_main_run_collapse_witness :
    'A' ∈ (MainScript.sanitize_filename " -Aula 01- ").data ∧
    (MainScript.isSepChar 'A' = false ∧ 'A' ≠ '.' ∧ 'A' ≠ ',') :=
  ⟨by decide, (sanitize_main_run_collapse " -Aula 01- ").2.1 'A' (by decide)⟩

/-- Witness for C10: after starting one lesson and adding one file, the
recorded entry satisfies `total_files = len(files) = 1`. -/
theorem manifest_total_files_invariant_witness :
    (("Aula 01",
        ({ timestamp := "t0", total_files := 1,
           files := [ManifestService.mkFileEntry "a.pdf" 3 "pdf" "" "success" "t1"],
           completed_at := none } : ManifestService.LessonEntry)) ∈
      ManifestService.runOps
        [ManifestService.ManifestOp.start "Aula 01" "t0",
         ManifestService.ManifestOp.addFile "Aula 01" "a.pdf" 3 "pdf" "" "success" "t1"]) ∧
    (1 : ℕ) = [ManifestService.mkFileEntry "a.pdf" 3 "pdf" "" "success" "t1"].length :=
  ⟨List.mem_singleton.mpr rfl,
   (ManifestService.manifest_total_files_invariant
      [ManifestService.ManifestOp.start "Aula 01" "t0",
       ManifestService.ManifestOp.addFile "Aula 01" "a.pdf" 3 "pdf" "" "success" "t1"]).1
     _ (List.mem_singleton.mpr rfl)⟩

set_option maxRecDepth 8000 in
/-- C8 (counterexample): `sanitize_filename` is not idempotent.  On a
201-character input the truncation step cuts the cleaned name to 200
characters ending in a space; a second application strips that trailing space
and returns a different (199-character) string. -/
theorem sanitize_idempotence_counterexample :
    let x := String.mk (List.replicate 199 'a') ++ " b"
    FileUtils.sanitize_filename 200 (FileUtils.sanitize_filename 200 x) ≠
      FileUtils.sanitize_filename 200 x := by
  decide

end AutoDownloader
